import Mathlib

/-!
Shallow embedding of `rbdbutil.py`, a reader/writer for a fixed-layout binary
track catalog plus a fuzzy matching engine for an external play-count ledger.

Python strings are modelled as lists of Unicode code points (`List Nat`), file
buffers as lists of byte values (`List Nat`), and fallible operations return
`Except PyErr`.  Every definition follows the corresponding source function;
definitions whose doc comment says otherwise model the spec's words for
comparison.
-/

/-- Code points of a Lean string, modelling a Python `str` as its sequence of
Unicode code points. -/
def pyStr (s : String) : List Nat := s.data.map Char.toNat

/-- Fuel-bounded worker for `pyReplace`.  The fuel is instantiated with the
length of the input list, which is enough because every step consumes at least
one element when the pattern is nonempty. -/
def pyReplaceAux (pat rep : List Nat) : Nat → List Nat → List Nat
  | _, [] => []
  | 0, l => l
  | fuel+1, c :: rest =>
    if pat.isPrefixOf (c :: rest) then
      rep ++ pyReplaceAux pat rep fuel ((c :: rest).drop pat.length)
    else
      c :: pyReplaceAux pat rep fuel rest

/-- Python `str.replace(pat, rep)`: replaces every non-overlapping occurrence
of `pat`, scanning left to right; replacement text is not rescanned. -/
def pyReplace (pat rep l : List Nat) : List Nat := pyReplaceAux pat rep l.length l

/-- Python `str.lower`, modelled on the code points this program distinguishes:
ASCII letters (65-90 map to 97-122) and the five uppercase accented vowels
193 (Á), 201 (É), 205 (Í), 211 (Ó), 218 (Ú), which Python lowercases to
225, 233, 237, 243, 250; identity on every other code point. -/
def pyLower (c : Nat) : Nat :=
  if 65 ≤ c ∧ c ≤ 90 then c + 32
  else if c = 193 then 225
  else if c = 201 then 233
  else if c = 205 then 237
  else if c = 211 then 243
  else if c = 218 then 250
  else c

/-- Source `strstd` (lines 20-37): the canonicalizer.  Each `let` mirrors one
`str.replace` of the source in order: straight apostrophe (39) twice,
ampersand (38) to "and" (97,110,100), question mark (63), comma (44),
hyphen (45), exclamation mark (33), period (46), backtick (96), space (32),
the five lowercase accented vowels, "Thirty" to "30", then truncation at the
first opening parenthesis (40) when one is present, and finally lowercasing. -/
def strstd (s : List Nat) : List Nat :=
  let s1 := pyReplace [39] [] s
  let s2 := pyReplace [39] [] s1
  let s3 := pyReplace [38] [97, 110, 100] s2
  let s4 := pyReplace [63] [] s3
  let s5 := pyReplace [44] [] s4
  let s6 := pyReplace [45] [] s5
  let s7 := pyReplace [33] [] s6
  let s8 := pyReplace [46] [] s7
  let s9 := pyReplace [96] [] s8
  let s10 := pyReplace [32] [] s9
  let s11 := pyReplace [225] [97] s10
  let s12 := pyReplace [233] [101] s11
  let s13 := pyReplace [237] [105] s12
  let s14 := pyReplace [243] [111] s13
  let s15 := pyReplace [250] [117] s14
  let s16 := pyReplace [84, 104, 105, 114, 116, 121] [51, 48] s15
  let s17 := if s16.contains 40 then s16.takeWhile (fun c => c != 40) else s16
  s17.map pyLower

/-- Code points removed by the canonicalizer: straight apostrophe, question
mark, comma, hyphen, exclamation mark, period, backtick, ASCII space. -/
def removeChars : List Nat := [39, 63, 44, 45, 33, 46, 96, 32]

/-- Ampersand expansion, spec-style: replaces code point 38 with "and". -/
def expandAmp (l : List Nat) : List Nat :=
  l.flatMap (fun c => if c = 38 then [97, 110, 100] else [c])

/-- Accent folding, spec-style: maps the five lowercase accented vowels
225 (á), 233 (é), 237 (í), 243 (ó), 250 (ú) to 97, 101, 105, 111, 117. -/
def accFix (c : Nat) : Nat :=
  if c = 225 then 97
  else if c = 233 then 101
  else if c = 237 then 105
  else if c = 243 then 111
  else if c = 250 then 117
  else c

/-- Truncation at the first opening parenthesis, mirroring
`s.split('(')[0]` guarded by `if "(" in s`. -/
def parenCut (l : List Nat) : List Nat :=
  if l.contains 40 then l.takeWhile (fun c => c != 40) else l

/-- Code points of the literal pattern "Thirty". -/
def thirtyPat : List Nat := [84, 104, 105, 114, 116, 121]

/-- Canonicalizer written from the spec's words, as amended: remove the listed
punctuation and ASCII spaces, expand ampersand to "and", fold the five
lowercase accented vowels, replace "Thirty" with "30", truncate at an opening
parenthesis when one remains, and lowercase last. -/
def strstdSpec (s : List Nat) : List Nat :=
  (parenCut (pyReplace thirtyPat [51, 48]
    ((expandAmp (s.filter (fun c => !(removeChars.contains c)))).map accFix))).map pyLower

/-- ASCII whitespace code points, for the claim's "all whitespace". -/
def pyWhitespace : List Nat := [9, 10, 11, 12, 13, 32]

/-- Canonicalizer written from the claim as stated (the claim's reference
definition): like `strstdSpec` but also removing the curly apostrophe (8217)
and every ASCII whitespace character, not only the space. -/
def strstdClaim (s : List Nat) : List Nat :=
  (parenCut (pyReplace thirtyPat [51, 48]
    ((expandAmp (s.filter (fun c =>
      !(removeChars.contains c) && !(pyWhitespace.contains c) && c != 8217))).map accFix))).map pyLower

/-- Test of the source regex `^[0-9][0-9]?[- ]`: true when the list starts with
one or two ASCII digits (48-57) followed by a hyphen (45) or a space (32). -/
def stdtrackMatches : List Nat → Bool
  | c0 :: c1 :: rest =>
    (decide (48 ≤ c0 ∧ c0 ≤ 57) && (c1 == 45 || c1 == 32)) ||
    (match rest with
     | c2 :: _ =>
       decide (48 ≤ c0 ∧ c0 ≤ 57) && decide (48 ≤ c1 ∧ c1 ≤ 57) &&
         (c2 == 45 || c2 == 32)
     | [] => false)
  | _ => false

/-- Python `str.split(' ')`: splits at every single space, keeping empty
segments; the result is never empty. -/
def pySplitSp : List Nat → List (List Nat)
  | [] => [[]]
  | c :: rest =>
    if c == 32 then [] :: pySplitSp rest
    else
      match pySplitSp rest with
      | [] => [[c]]
      | g :: gs => (c :: g) :: gs

/-- Python `" ".join`: concatenates the segments with a single space between
consecutive segments. -/
def pyJoinSp : List (List Nat) → List Nat
  | [] => []
  | [g] => g
  | g :: gs => g ++ 32 :: pyJoinSp gs

/-- Source `stdtrack` (lines 13-18): when the title matches the leading
track-number regex, split on spaces, drop the first segment and re-join with
spaces; otherwise return the title unchanged. -/
def stdtrack (track : List Nat) : List Nat :=
  if stdtrackMatches track then pyJoinSp ((pySplitSp track).drop 1) else track

/-- Source `Track` (lines 39-67): raw fields plus the key computed at
construction. -/
structure Track where
  artist : List Nat
  album : List Nat
  title : List Nat
  key : List Nat

/-- Source `Track.__init__`: the key is the canonicalized concatenation of
artist, album and cleaned title, with no separator. -/
def mkTrack (artist album title : List Nat) : Track :=
  { artist := artist, album := album, title := title
    key := strstd (artist ++ album ++ stdtrack title) }

/-- Source `Track.eq`: loose equality compares keys. -/
def Track.eq (t u : Track) : Bool := t.key == u.key

/-- Source `Track.eq_strict`: strict equality compares the three raw fields. -/
def Track.eq_strict (t u : Track) : Bool :=
  t.artist == u.artist && t.album == u.album && t.title == u.title

/-- Identity of one physical file of the database: the index file
(`database_idx.tcd`) or the string-table file `database_{n}.tcd` of the
indirect field at position `n`. -/
inductive FIdx where
  | idx : FIdx
  | tag : Nat → FIdx
deriving DecidableEq

/-- Positions of the nine indirect fields, whose raw numeric value is an
offset into a dedicated string-table file (source `file_indexes`, with the
string member "idx" standing for the index file itself). -/
def fileTagIdxs : List Nat := [0, 1, 3, 4, 5, 6, 7, 8, 12]

/-- Every physical file of the database, the index file first, in the order of
the source's `file_indexes` list. -/
def fileIndexes : List FIdx := FIdx.idx :: fileTagIdxs.map FIdx.tag

/-- Source `positions`: name-to-position table of the 24 u32 fields of a
96-byte entry. -/
def positions : List (String × Nat) :=
  [("ARTIST", 0), ("ALBUM", 1), ("GENRE", 2), ("TITLE", 3), ("FILE", 4),
   ("COMPOSER", 5), ("COMMENT", 6), ("ALBUMARTIST", 7), ("GROUPING", 8),
   ("YEAR", 9), ("DISCNO", 10), ("TRACKNO", 11), ("CANONICALARTIST", 12),
   ("BITRATE", 13), ("LEN", 14), ("PLAYCOUNT", 15), ("RATING", 16),
   ("PLAYTIME", 17), ("LASTPLAYED", 18), ("COMMITID", 19), ("MTIME", 20),
   ("LASTELAPSED", 21), ("LASTOFFSET", 22), ("FLAGS", 23)]

/-- Dictionary lookup in the position table; `none` models the `KeyError`
raised by the source on an unknown field name. -/
def positionOf (f : String) : Option Nat := positions.lookup f

/-- In-memory state of a loaded `RBDB`: the byte buffer of every file, the
fingerprint of each buffer taken at load (md5 is modelled as an injective
fingerprint, that is, a snapshot of the bytes), and the iteration cursor. -/
structure RBDBState where
  datas : FIdx → List Nat
  checksums : FIdx → List Nat
  curOffset : Nat

/-- Source `RBDB.__init__`: reads every file, fingerprints it, and puts the
cursor at byte 24, right after the header. -/
def load (d : FIdx → List Nat) : RBDBState :=
  { datas := d, checksums := d, curOffset := 24 }

/-- Python exceptions the modelled operations can raise. -/
inductive PyErr where
  | attributeError : PyErr
  | nameError : PyErr
  | keyError : PyErr
  | indexError : PyErr
  | overflowError : PyErr
deriving DecidableEq

/-- Python slice `l[a:b]` for nonnegative bounds: silently truncates at the
end of the list and yields `[]` when `b ≤ a`. -/
def pySlice (l : List Nat) (a b : Nat) : List Nat := (l.drop a).take (b - a)

/-- Source `as_int`: little-endian integer value of a byte sequence
(`int.from_bytes`, which accepts any length, including zero). -/
def asInt (l : List Nat) : Nat := l.foldr (fun b acc => b + 256 * acc) 0

/-- Source `as_bytes`: the four little-endian bytes of a u32 value
(`int.to_bytes(length=4)`; the source path feeding values of 2^32 or more is
modelled as `OverflowError` at the call site). -/
def asBytes (v : Nat) : List Nat :=
  [v % 256, v / 256 % 256, v / 65536 % 256, v / 16777216 % 256]

/-- Little-endian u32 read from the index buffer at `off`, by truncating
slice. -/
def readU32 (s : RBDBState) (off : Nat) : Nat :=
  asInt (pySlice (s.datas FIdx.idx) off (off + 4))

/-- Byte-by-byte store of `bs` into `l` starting at `off`, mirroring the
source's assignment loop over a `bytearray`. -/
def writeList : List Nat → Nat → List Nat → List Nat
  | l, _, [] => l
  | l, off, b :: bs => writeList (l.set off b) (off + 1) bs

/-- Source `RBDB.update_numeric_field` (lines 196-201): writes the four
little-endian bytes of `newvalue` at `index + position * 4` in the index
buffer.  An unknown field name raises `KeyError`, a value of 2^32 or more
raises `OverflowError` in `as_bytes`, and an out-of-range write raises
`IndexError` (the source raises it at the first out-of-range byte; the model
checks the bounds up front, which agrees with the source on every in-bounds
write). -/
def update_numeric_field (s : RBDBState) (index : Nat) (f : String) (newvalue : Nat) :
    Except PyErr RBDBState :=
  match positionOf f with
  | none => Except.error PyErr.keyError
  | some p =>
    if newvalue < 4294967296 then
      let off := index + p * 4
      if off + 4 ≤ (s.datas FIdx.idx).length then
        Except.ok { s with
          datas := fun i =>
            if i = FIdx.idx then writeList (s.datas FIdx.idx) off (asBytes newvalue)
            else s.datas i }
      else Except.error PyErr.indexError
    else Except.error PyErr.overflowError

/-- Source `RBDB.get_numeric_field` (lines 203-205): little-endian u32 read at
`index + position * 4`.  The source raises `KeyError` on an unknown field
name; the core only ever calls it with known names, so the unreachable branch
is modelled as 0. -/
def get_numeric_field (s : RBDBState) (index : Nat) (f : String) : Nat :=
  match positionOf f with
  | some p => readU32 s (index + p * 4)
  | none => 0

/-- Source `RBDB.update_entry` (lines 207-215).  When `playcount` is given the
source executes `self.update_numeric_field(self.index, ...)`, but `RBDB`
defines no attribute `index` anywhere, so the attribute access raises
`AttributeError` before anything is written.  When only `update_playtime` is
requested, PLAYTIME is set to the product of the PLAYCOUNT and LEN values
currently in the buffer. -/
def update_entry (s : RBDBState) (index : Nat) (playcount : Option Nat)
    (update_playtime : Bool) : Except PyErr RBDBState :=
  match playcount with
  | some _ => Except.error PyErr.attributeError
  | none =>
    if update_playtime then
      let pc := get_numeric_field s index "PLAYCOUNT"
      let len := get_numeric_field s index "LEN"
      update_numeric_field s index "PLAYTIME" (pc * len)
    else Except.ok s

/-- Source `RBDB.commit` (lines 217-223): the files whose current content
fingerprint differs from the fingerprint taken at load; exactly these are
rewritten via `overwrite`. -/
def commitFlushed (s : RBDBState) : List FIdx :=
  fileIndexes.filter (fun i => s.datas i != s.checksums i)

/-- Decoded value of one entry field: a literal number, or the text resolved
through a string-table file for an indirect field. -/
inductive EntryVal where
  | num : Nat → EntryVal
  | str : List Nat → EntryVal
deriving DecidableEq

/-- Models UTF-8 decoding of a payload.  Every payload appearing in this
development is ASCII, where the decoded code points equal the bytes. -/
def utf8Decode (bs : List Nat) : List Nat := bs

/-- Source `RBDB._get_string_at_offset` (lines 162-172): reads a u32 length at
`offset`, skips the u32 sequence id, takes `length` payload bytes from
`offset + 8`, truncates at the first zero byte, and decodes.  All reads are
truncating slices, so they never fail. -/
def getStringAtOffset (s : RBDBState) (tagidx offset : Nat) : List Nat :=
  let data := s.datas (FIdx.tag tagidx)
  let len := asInt (pySlice data offset (offset + 4))
  let payload := pySlice data (offset + 8) (offset + 8 + len)
  utf8Decode (payload.takeWhile (fun b => b != 0))

/-- Source `RBDB.entry` (lines 177-191): decodes the 24 u32 fields at
`entry_offset`, resolving indirect fields through their string-table files,
and records the entry offset under the key "index". -/
def entryVals (s : RBDBState) (entry_offset : Nat) : List (String × EntryVal) :=
  ("index", EntryVal.num entry_offset) ::
    positions.map (fun np =>
      let v := asInt (pySlice (s.datas FIdx.idx) (entry_offset + np.2 * 4)
        (entry_offset + np.2 * 4 + 4))
      if fileTagIdxs.contains np.2 then (np.1, EntryVal.str (getStringAtOffset s np.2 v))
      else (np.1, EntryVal.num v))

/-- Source `RBDB.next_entry` (lines 157-160): decodes the entry at the cursor
and advances the cursor by 96 bytes. -/
def nextEntry (s : RBDBState) : List (String × EntryVal) × RBDBState :=
  (entryVals s s.curOffset, { s with curOffset := s.curOffset + 96 })

/-- Source `RBDB.EOF` (lines 193-194): true when the cursor has reached or
passed the end of the index buffer. -/
def EOF (s : RBDBState) : Bool := decide ((s.datas FIdx.idx).length ≤ s.curOffset)

/-- Python `dict.get` on a decoded entry. -/
def entryGet (e : List (String × EntryVal)) (k : String) : Option EntryVal :=
  e.lookup k

/-- Extracts the text of an indirect field; the fallback branches are
unreachable for the fields this tool reads as strings. -/
def evStr : Option EntryVal → List Nat
  | some (EntryVal.str s) => s
  | _ => []

/-- Extracts the number of a direct field; the fallback branches are
unreachable for the fields this tool reads as numbers. -/
def evNum : Option EntryVal → Nat
  | some (EntryVal.num n) => n
  | _ => 0

/-- Source `LastFM.exists` via `self.data.get(track.key)`: the ledger is an
association list from canonical key to accumulated play count. -/
def lookupLedger (ledger : List (List Nat × Nat)) (key : List Nat) : Option Nat :=
  ledger.lookup key

/-- Fuel-bounded worker for the `--import-counts` loop (source lines 322-338).
One fuel unit per iteration; the loop advances the cursor by 96 bytes over a
buffer whose length never changes, so `length + 1` units can never run out and
the fuel-exhaustion branch is unreachable. -/
def importLoopAux (ledger : List (List Nat × Nat)) :
    Nat → RBDBState → Nat → Nat → Except PyErr (RBDBState × Nat × Nat)
  | 0, s, done, missing => Except.ok (s, done, missing)
  | fuel+1, s, done, missing =>
    if EOF s then Except.ok (s, done, missing)
    else
      let es := nextEntry s
      let e := es.1
      let tr := mkTrack (evStr (entryGet e "ARTIST")) (evStr (entryGet e "ALBUM"))
        (evStr (entryGet e "TITLE"))
      match lookupLedger ledger tr.key with
      | some cnt =>
        let epc := evNum (entryGet e "PLAYCOUNT")
        let step : Except PyErr RBDBState := do
          let s2 ←
            if cnt > epc then
              update_entry es.2 (evNum (entryGet e "index")) (some cnt) false
            else pure es.2
          if epc > 0 ∧ evNum (entryGet e "PLAYTIME") = 0 then
            update_entry s2 (evNum (entryGet e "index")) none true
          else pure s2
        match step with
        | Except.ok s3 => importLoopAux ledger fuel s3 (done + 1) missing
        | Except.error err => Except.error err
      | none => importLoopAux ledger fuel es.2 done (missing + 1)

/-- Source `--import-counts` branch (lines 319-342): runs the merge loop and
then executes `print("Import: Done", ok, "Missing", ko)`, where neither `ok`
nor `ko` is defined anywhere in the program, so a completed loop ends in
`NameError` and `rbdb.commit()` on line 342 is never reached. -/
def importCounts (ledger : List (List Nat × Nat)) (s : RBDBState) :
    Except PyErr (RBDBState × Nat × Nat) :=
  match importLoopAux ledger ((s.datas FIdx.idx).length + 1) s 0 0 with
  | Except.ok _ => Except.error PyErr.nameError
  | Except.error e => Except.error e

/-- Concrete multi-file database with a 24-byte all-zero header and one
all-zero 96-byte entry in the index file, and 8 zero bytes in every
string-table file (so every indirect field resolves to the empty string). -/
def oneEntryFiles : FIdx → List Nat
  | FIdx.idx => List.replicate 120 0
  | FIdx.tag _ => List.replicate 8 0

/-- The loaded one-entry database. -/
def oneEntryDB : RBDBState := load oneEntryFiles

/-- Concrete database whose index file is a bare 24-byte header with no
entries. -/
def emptyFiles : FIdx → List Nat
  | FIdx.idx => List.replicate 24 0
  | FIdx.tag _ => List.replicate 8 0

/-- The loaded empty database. -/
def emptyDB : RBDBState := load emptyFiles

/-- Concrete truncated database: the index file has the 24-byte header plus
only 6 further bytes, so no full 96-byte record exists at the cursor. -/
def truncatedFiles : FIdx → List Nat
  | FIdx.idx => List.replicate 30 0
  | FIdx.tag _ => List.replicate 8 0

/-- The loaded truncated database. -/
def truncatedDB : RBDBState := load truncatedFiles

/-- Concrete database realizing the spec's playtime example: one entry at
offset 24 with LEN = 200 (bytes 80-83), PLAYCOUNT = 5 (bytes 84-87) and
PLAYTIME = 0 (bytes 92-95). -/
def playtimeFiles : FIdx → List Nat
  | FIdx.idx =>
    List.replicate 80 0 ++ [200, 0, 0, 0] ++ [5, 0, 0, 0] ++ List.replicate 32 0
  | FIdx.tag _ => List.replicate 8 0

/-- The loaded playtime-example database. -/
def playtimeDB : RBDBState := load playtimeFiles

theorem pySplitSp_ne_nil (l : List Nat) : pySplitSp l ≠ [] := by
  cases l with
  | nil => simp [pySplitSp]
  | cons c rest =>
    simp only [pySplitSp]
    split
    · simp
    · split
      · simp
      · simp

theorem pySplitSp_no_space {l : List Nat} (h : 32 ∉ l) : pySplitSp l = [l] := by
  induction l with
  | nil => rfl
  | cons c rest ih =>
    have hc : c ≠ 32 := fun hc => h (hc ▸ List.mem_cons_self c rest)
    have hrest : 32 ∉ rest := fun hr => h (List.mem_cons_of_mem c hr)
    simp only [pySplitSp, beq_iff_eq, if_neg hc, ih hrest]

theorem pySplitSp_append {tok : List Nat} (rest : List Nat) (h : 32 ∉ tok) :
    pySplitSp (tok ++ 32 :: rest) = tok :: pySplitSp rest := by
  induction tok with
  | nil => simp [pySplitSp]
  | cons c tok ih =>
    have hc : c ≠ 32 := fun hc => h (hc ▸ List.mem_cons_self c tok)
    have htok : 32 ∉ tok := fun hr => h (List.mem_cons_of_mem c hr)
    simp only [List.cons_append, pySplitSp, beq_iff_eq, if_neg hc, List.append_eq]
    rw [ih htok]

theorem pyJoinSp_pySplitSp (l : List Nat) : pyJoinSp (pySplitSp l) = l := by
  induction l with
  | nil => rfl
  | cons c rest ih =>
    by_cases hc : c = 32
    · subst hc
      simp only [pySplitSp, beq_self_eq_true, if_pos]
      cases heq : pySplitSp rest with
      | nil => exact absurd heq (pySplitSp_ne_nil rest)
      | cons g gs =>
        rw [heq] at ih
        simp only [pyJoinSp, List.nil_append]
        exact congrArg (32 :: ·) ih
    · simp only [pySplitSp, beq_iff_eq, if_neg hc]
      cases heq : pySplitSp rest with
      | nil => exact absurd heq (pySplitSp_ne_nil rest)
      | cons g gs =>
        rw [heq] at ih
        cases gs with
        | nil => simpa [pyJoinSp] using congrArg (c :: ·) ih
        | cons g2 gs2 => simpa [pyJoinSp] using congrArg (c :: ·) ih

set_option maxRecDepth 100000 in
/-- C1: the claim states that after the import merge every matched entry's
PLAYCOUNT equals max(original, ledger count).  The code cannot deliver this:
on a catalog whose single entry has PLAYCOUNT 0 and whose key (the empty key)
has ledger count 1, the merge calls `update_entry(..., playcount=1)`, which
reads the undefined attribute `self.index` and raises `AttributeError`;
nothing is written and the run aborts. -/
theorem C1_import_crashes_on_update :
    get_numeric_field oneEntryDB 24 "PLAYCOUNT" = 0 ∧
    lookupLedger [([], 1)]
      (mkTrack (evStr (entryGet (entryVals oneEntryDB 24) "ARTIST"))
        (evStr (entryGet (entryVals oneEntryDB 24) "ALBUM"))
        (evStr (entryGet (entryVals oneEntryDB 24) "TITLE"))).key = some 1 ∧
    importCounts [([], 1)] oneEntryDB = Except.error PyErr.attributeError :=
  ⟨rfl, rfl, rfl⟩

set_option maxRecDepth 100000 in
/-- C2: the claim states `update_entry(e, new_play_count=v)` writes v into the
entry's PLAYCOUNT field.  The code instead raises `AttributeError` on every
call that passes a play count (it reads `self.index`, an attribute `RBDB`
never defines), with or without the playtime option; only the
playtime-only path works, and on the spec's example (PLAYCOUNT=5, LEN=200)
it does set PLAYTIME to 1000. -/
theorem C2_update_entry_playcount_crashes :
    update_entry oneEntryDB 24 (some 5) false = Except.error PyErr.attributeError ∧
    update_entry oneEntryDB 24 (some 5) true = Except.error PyErr.attributeError ∧
    (∃ s, update_entry playtimeDB 24 none true = Except.ok s ∧
      get_numeric_field s 24 "PLAYTIME" = 1000) :=
  ⟨rfl, rfl, ⟨_, rfl, rfl⟩⟩

set_option maxRecDepth 100000 in
/-- C3: the claim states the import terminates normally, reports {done,
missing} and then commits.  The code's summary line prints the undefined
names `ok` and `ko`, so even an import whose loop completes (here: an empty
catalog with an empty ledger, and a one-entry catalog whose key misses the
ledger) ends in `NameError`, reports nothing, and never reaches
`rbdb.commit()`. -/
theorem C3_import_summary_name_error :
    importCounts [] emptyDB = Except.error PyErr.nameError ∧
    importCounts [([99], 1)] oneEntryDB = Except.error PyErr.nameError :=
  ⟨rfl, rfl⟩

/-- C4 counterexample: the claim's reference definition removes curly
apostrophes (8217) and all whitespace, but the source removes only the
straight apostrophe and only the ASCII space: on the two-character input
curly-apostrophe tab, `strstd` returns it unchanged while the claim's
reference definition returns the empty string. -/
theorem C4_counterexample :
    strstd [8217, 9] = [8217, 9] ∧ strstdClaim [8217, 9] = [] ∧
    strstd [8217, 9] ≠ strstdClaim [8217, 9] := by
  refine ⟨by decide, by decide, by decide⟩

/-- C5 counterexample: the claim states `normalize_title("12 - Song Title") =
"Song Title"`.  The source, once the leading-number regex matches, drops only
the first space-delimited token, so it returns "- Song Title". -/
theorem C5_counterexample :
    stdtrack (pyStr "12 - Song Title") = pyStr "- Song Title" ∧
    stdtrack (pyStr "12 - Song Title") ≠ pyStr "Song Title" := by
  refine ⟨by decide, by decide⟩

/-- C5 as amended: when the title starts with one or two ASCII digits followed
by a hyphen or a space, `stdtrack` removes the first space-delimited token
together with the following space and returns the rest unchanged; when such a
title contains no space at all, the result is empty; titles that do not match
the pattern are returned unchanged. -/
theorem C5_normalize_title_amended :
    (∀ tok rest : List Nat, 32 ∉ tok → stdtrackMatches (tok ++ 32 :: rest) = true →
      stdtrack (tok ++ 32 :: rest) = rest) ∧
    (∀ l : List Nat, 32 ∉ l → stdtrackMatches l = true → stdtrack l = []) ∧
    (∀ l : List Nat, stdtrackMatches l = false → stdtrack l = l) := by
  refine ⟨fun tok rest htok hm => ?_, fun l hl hm => ?_, fun l hm => ?_⟩
  · rw [stdtrack, if_pos hm, pySplitSp_append rest htok]
    simpa using pyJoinSp_pySplitSp rest
  · rw [stdtrack, if_pos hm, pySplitSp_no_space hl]
    rfl
  · rw [stdtrack, if_neg (by simp [hm])]

/-- Witness for C5: concrete instances of all three amended cases. -/
theorem C5_witness :
    stdtrack (pyStr "12" ++ 32 :: pyStr "- Song Title") = pyStr "- Song Title" ∧
    stdtrack (pyStr "1-X") = [] ∧
    stdtrack (pyStr "Song Title") = pyStr "Song Title" :=
  ⟨C5_normalize_title_amended.1 (pyStr "12") (pyStr "- Song Title") (by decide) (by decide),
   C5_normalize_title_amended.2.1 (pyStr "1-X") (by decide) (by decide),
   C5_normalize_title_amended.2.2 (pyStr "Song Title") (by decide)⟩

set_option maxRecDepth 100000 in
/-- C7 counterexample: the claim states `next()` fails with OutOfBounds when no
full 96-byte record is available.  On a 30-byte index file (24-byte header
plus 6 bytes) the cursor is not at end, yet `next_entry` silently decodes a
complete entry — every slice read truncates, missing bytes act as zeros and
indirect fields resolve offset 0 — and advances the cursor to 120. -/
theorem C7_counterexample :
    (truncatedDB.datas FIdx.idx).length = 30 ∧
    truncatedDB.curOffset + 96 > (truncatedDB.datas FIdx.idx).length ∧
    EOF truncatedDB = false ∧
    (nextEntry truncatedDB).1 =
      [("index", EntryVal.num 24), ("ARTIST", EntryVal.str []),
       ("ALBUM", EntryVal.str []), ("GENRE", EntryVal.num 0),
       ("TITLE", EntryVal.str []), ("FILE", EntryVal.str []),
       ("COMPOSER", EntryVal.str []), ("COMMENT", EntryVal.str []),
       ("ALBUMARTIST", EntryVal.str []), ("GROUPING", EntryVal.str []),
       ("YEAR", EntryVal.num 0), ("DISCNO", EntryVal.num 0),
       ("TRACKNO", EntryVal.num 0), ("CANONICALARTIST", EntryVal.str []),
       ("BITRATE", EntryVal.num 0), ("LEN", EntryVal.num 0),
       ("PLAYCOUNT", EntryVal.num 0), ("RATING", EntryVal.num 0),
       ("PLAYTIME", EntryVal.num 0), ("LASTPLAYED", EntryVal.num 0),
       ("COMMITID", EntryVal.num 0), ("MTIME", EntryVal.num 0),
       ("LASTELAPSED", EntryVal.num 0), ("LASTOFFSET", EntryVal.num 0),
       ("FLAGS", EntryVal.num 0)] ∧
    (nextEntry truncatedDB).2.curOffset = 120 :=
  ⟨rfl, by decide, rfl, rfl, rfl⟩

/-- C7 as amended: iteration never raises on a truncated file — a u32 field
read whose 4 bytes lie at or beyond the end of the index buffer silently
yields 0 because Python slices truncate — and `EOF` is true exactly when the
cursor has reached or passed the index buffer's length. -/
theorem C7_iteration_amended :
    (∀ s : RBDBState, EOF s = true ↔ (s.datas FIdx.idx).length ≤ s.curOffset) ∧
    (∀ (s : RBDBState) (off : Nat) (f : String) (p : Nat), positionOf f = some p →
      (s.datas FIdx.idx).length ≤ off + p * 4 → get_numeric_field s off f = 0) := by
  constructor
  · intro s
    simp [EOF]
  · intro s off f p hp hlen
    simp only [get_numeric_field, hp, readU32, pySlice]
    rw [List.drop_eq_nil_of_le hlen]
    simp [asInt]

/-- Witness for C7 as amended: the empty database is at end immediately, and a
field read beyond the 30-byte truncated buffer yields 0. -/
theorem C7_witness :
    ((EOF emptyDB = true ↔ (emptyDB.datas FIdx.idx).length ≤ emptyDB.curOffset) ∧
      EOF emptyDB = true) ∧
    get_numeric_field truncatedDB 24 "FLAGS" = 0 :=
  ⟨⟨C7_iteration_amended.1 emptyDB, (C7_iteration_amended.1 emptyDB).mpr (by decide)⟩,
   C7_iteration_amended.2 truncatedDB 24 "FLAGS" 23 rfl (by decide)⟩

/-- C8: loading a database and committing with no intervening mutation flushes
no file, and in general `commit` flushes exactly the stores whose current
content fingerprint differs from the fingerprint taken at load (md5 is
modelled as an injective fingerprint of the buffer). -/
theorem C8_commit_flushes_dirty :
    (∀ d : FIdx → List Nat, commitFlushed (load d) = []) ∧
    (∀ (s : RBDBState) (i : FIdx),
      i ∈ commitFlushed s ↔ i ∈ fileIndexes ∧ s.datas i ≠ s.checksums i) := by
  constructor
  · intro d
    simp [commitFlushed, load]
  · intro s i
    simp [commitFlushed, List.mem_filter, bne_iff_ne]

/-- Witness for C8: a freshly loaded one-entry database commits nothing, and
the dirtiness criterion instantiates to its index file. -/
theorem C8_witness :
    commitFlushed (load oneEntryFiles) = [] ∧
    (FIdx.idx ∈ commitFlushed oneEntryDB ↔
      FIdx.idx ∈ fileIndexes ∧ oneEntryDB.datas FIdx.idx ≠ oneEntryDB.checksums FIdx.idx) :=
  ⟨C8_commit_flushes_dirty.1 oneEntryFiles, C8_commit_flushes_dirty.2 oneEntryDB FIdx.idx⟩

/-- C9: frame property of `update_numeric_field` — for a known field, a u32
value and an in-bounds entry offset, the call succeeds and changes exactly the
4 bytes at `index + position * 4` of the index buffer, which afterwards hold
the little-endian encoding of the value; every other byte of the index buffer,
every string-table buffer, the cursor and every load-time fingerprint are
unchanged, so only the index file can become dirty. -/
theorem C9_update_frame (s : RBDBState) (index : Nat) (f : String) (p v : Nat)
    (hp : positionOf f = some p) (hv : v < 4294967296)
    (hb : index + p * 4 + 4 ≤ (s.datas FIdx.idx).length) :
    ∃ s', update_numeric_field s index f v = Except.ok s' ∧
      (∀ i, i ≠ FIdx.idx → s'.datas i = s.datas i) ∧
      s'.curOffset = s.curOffset ∧ s'.checksums = s.checksums ∧
      (s'.datas FIdx.idx).length = (s.datas FIdx.idx).length ∧
      (∀ j, j < index + p * 4 ∨ index + p * 4 + 4 ≤ j →
        (s'.datas FIdx.idx)[j]? = (s.datas FIdx.idx)[j]?) ∧
      (s'.datas FIdx.idx)[index + p * 4]? = some (v % 256) ∧
      (s'.datas FIdx.idx)[index + p * 4 + 1]? = some (v / 256 % 256) ∧
      (s'.datas FIdx.idx)[index + p * 4 + 2]? = some (v / 65536 % 256) ∧
      (s'.datas FIdx.idx)[index + p * 4 + 3]? = some (v / 16777216 % 256) := by
  have key : update_numeric_field s index f v = Except.ok
      { s with datas := fun i =>
          if i = FIdx.idx then writeList (s.datas FIdx.idx) (index + p * 4) (asBytes v)
          else s.datas i } := by
    simp only [update_numeric_field, hp, if_pos hv, if_pos hb]
  refine ⟨_, key, fun i hi => if_neg hi, rfl, rfl, ?_, ?_, ?_, ?_, ?_, ?_⟩
  · dsimp only
    rw [if_pos rfl]
    simp [asBytes, writeList]
  · intro j hj
    dsimp only
    rw [if_pos rfl]
    simp only [asBytes, writeList]
    rw [List.getElem?_set_ne (by omega), List.getElem?_set_ne (by omega),
      List.getElem?_set_ne (by omega), List.getElem?_set_ne (by omega)]
  · dsimp only
    rw [if_pos rfl]
    simp only [asBytes, writeList]
    rw [List.getElem?_set_ne (by omega), List.getElem?_set_ne (by omega),
      List.getElem?_set_ne (by omega)]
    exact List.getElem?_set_self (by omega)
  · dsimp only
    rw [if_pos rfl]
    simp only [asBytes, writeList]
    rw [List.getElem?_set_ne (by omega), List.getElem?_set_ne (by omega)]
    refine List.getElem?_set_self ?_
    simp only [List.length_set]
    omega
  · dsimp only
    rw [if_pos rfl]
    simp only [asBytes, writeList]
    rw [List.getElem?_set_ne (by omega)]
    refine List.getElem?_set_self ?_
    simp only [List.length_set]
    omega
  · dsimp only
    rw [if_pos rfl]
    simp only [asBytes, writeList]
    refine List.getElem?_set_self ?_
    simp only [List.length_set]
    omega

/-- Witness for C9: updating PLAYCOUNT to 7 on the one-entry database's single
entry at offset 24. -/
theorem C9_witness :
    ∃ s', update_numeric_field oneEntryDB 24 "PLAYCOUNT" 7 = Except.ok s' ∧
      (∀ i, i ≠ FIdx.idx → s'.datas i = oneEntryDB.datas i) ∧
      s'.curOffset = oneEntryDB.curOffset ∧ s'.checksums = oneEntryDB.checksums ∧
      (s'.datas FIdx.idx).length = (oneEntryDB.datas FIdx.idx).length ∧
      (∀ j, j < 24 + 15 * 4 ∨ 24 + 15 * 4 + 4 ≤ j →
        (s'.datas FIdx.idx)[j]? = (oneEntryDB.datas FIdx.idx)[j]?) ∧
      (s'.datas FIdx.idx)[24 + 15 * 4]? = some (7 % 256) ∧
      (s'.datas FIdx.idx)[24 + 15 * 4 + 1]? = some (7 / 256 % 256) ∧
      (s'.datas FIdx.idx)[24 + 15 * 4 + 2]? = some (7 / 65536 % 256) ∧
      (s'.datas FIdx.idx)[24 + 15 * 4 + 3]? = some (7 / 16777216 % 256) :=
  C9_update_frame oneEntryDB 24 "PLAYCOUNT" 15 7 rfl (by decide) (by decide)

theorem pyReplaceAux_singleton (a : Nat) (rep : List Nat) :
    ∀ (fuel : Nat) (l : List Nat), l.length ≤ fuel →
      pyReplaceAux [a] rep fuel l = l.flatMap (fun c => if c = a then rep else [c]) := by
  intro fuel
  induction fuel with
  | zero =>
    intro l hl
    cases l with
    | nil => rfl
    | cons c rest => simp at hl
  | succ fuel ih =>
    intro l hl
    cases l with
    | nil => rfl
    | cons c rest =>
      simp only [pyReplaceAux, List.isPrefixOf_cons₂, List.isPrefixOf_nil_left,
        Bool.and_true, List.flatMap_cons]
      by_cases hc : a = c
      · subst hc
        rw [if_pos (by simp), if_pos rfl]
        simp only [List.length_cons, List.length_nil, List.drop_succ_cons, List.drop_zero]
        rw [ih rest (by simpa using hl)]
      · rw [if_neg (by simp [hc]), if_neg (fun h => hc h.symm)]
        rw [ih rest (by simpa using Nat.le_of_succ_le_succ hl)]
        rfl

theorem pyReplace_singleton (a : Nat) (rep l : List Nat) :
    pyReplace [a] rep l = l.flatMap (fun c => if c = a then rep else [c]) :=
  pyReplaceAux_singleton a rep l.length l le_rfl

theorem pyRemove_eq_filter (a : Nat) (l : List Nat) :
    pyReplace [a] [] l = l.filter (fun c => c != a) := by
  rw [pyReplace_singleton]
  induction l with
  | nil => rfl
  | cons c rest ih =>
    simp only [List.flatMap_cons, List.filter_cons]
    rw [ih]
    by_cases hc : c = a
    · simp [hc]
    · simp [hc]

theorem pyReplace_amp (l : List Nat) :
    pyReplace [38] [97, 110, 100] l = expandAmp l := by
  rw [pyReplace_singleton]
  rfl

theorem pyReplace_single_map (a b : Nat) (l : List Nat) :
    pyReplace [a] [b] l = l.map (fun c => if c = a then b else c) := by
  rw [pyReplace_singleton]
  induction l with
  | nil => rfl
  | cons c rest ih =>
    simp only [List.flatMap_cons, List.map_cons]
    rw [ih]
    by_cases hc : c = a
    · simp [hc]
    · simp [hc]

theorem bne_true_of_ne {x y : Nat} (h : x ≠ y) : (x != y) = true := by
  simpa [bne_iff_ne] using h

theorem expandAmp_cons (c : Nat) (rest : List Nat) :
    expandAmp (c :: rest) = (if c = 38 then [97, 110, 100] else [c]) ++ expandAmp rest := rfl

theorem filter_expandAmp (a : Nat) (l : List Nat)
    (ha38 : a ≠ 38) (ha97 : a ≠ 97) (ha110 : a ≠ 110) (ha100 : a ≠ 100) :
    (expandAmp l).filter (fun c => c != a) = expandAmp (l.filter (fun c => c != a)) := by
  induction l with
  | nil => rfl
  | cons c rest ih =>
    rw [expandAmp_cons, List.filter_append, ih, List.filter_cons]
    by_cases hc : c = 38
    · subst hc
      rw [if_pos rfl, if_pos (bne_true_of_ne (Ne.symm ha38)), expandAmp_cons, if_pos rfl]
      congr 1
      simp only [List.filter_cons, List.filter_nil]
      rw [if_pos (bne_true_of_ne (Ne.symm ha97)), if_pos (bne_true_of_ne (Ne.symm ha110)),
        if_pos (bne_true_of_ne (Ne.symm ha100))]
    · rw [if_neg hc]
      by_cases hca : c = a
      · subst hca
        simp
      · rw [if_pos (bne_true_of_ne hca), expandAmp_cons, if_neg hc]
        simp [bne_true_of_ne hca]

theorem filter_self_filter (p : Nat → Bool) (l : List Nat) :
    (l.filter p).filter p = l.filter p := by
  rw [List.filter_filter]
  exact List.filter_congr (fun a _ => Bool.and_self (p a))

theorem keepPred_eq (c : Nat) :
    (c != 32 && (c != 96 && (c != 46 && (c != 33 && (c != 45 && (c != 44 && (c != 63 && c != 39))))))) =
      !(removeChars.contains c) := by
  by_cases h39 : c = 39
  · subst h39; decide
  by_cases h63 : c = 63
  · subst h63; decide
  by_cases h44 : c = 44
  · subst h44; decide
  by_cases h45 : c = 45
  · subst h45; decide
  by_cases h33 : c = 33
  · subst h33; decide
  by_cases h46 : c = 46
  · subst h46; decide
  by_cases h96 : c = 96
  · subst h96; decide
  by_cases h32 : c = 32
  · subst h32; decide
  simp [removeChars, bne, h39, h63, h44, h45, h33, h46, h96, h32]

theorem filter_keepPred (l : List Nat) :
    List.filter
      (fun a => a != 32 && (a != 96 && (a != 46 && (a != 33 && (a != 45 && (a != 44 && (a != 63 && a != 39))))))) l
      = List.filter (fun c => !(removeChars.contains c)) l :=
  List.filter_congr (fun a _ => keepPred_eq a)

theorem accChain_eq (c : Nat) :
    ((fun c => if c = 250 then 117 else c) ∘ (fun c => if c = 243 then 111 else c) ∘
      (fun c => if c = 237 then 105 else c) ∘ (fun c => if c = 233 then 101 else c) ∘
      (fun c => if c = 225 then 97 else c)) c = accFix c := by
  simp only [Function.comp]
  by_cases h1 : c = 225
  · subst h1; decide
  by_cases h2 : c = 233
  · subst h2; decide
  by_cases h3 : c = 237
  · subst h3; decide
  by_cases h4 : c = 243
  · subst h4; decide
  by_cases h5 : c = 250
  · subst h5; decide
  simp [accFix, h1, h2, h3, h4, h5]

theorem map_accChain (l : List Nat) :
    List.map ((fun c => if c = 250 then 117 else c) ∘ (fun c => if c = 243 then 111 else c) ∘
      (fun c => if c = 237 then 105 else c) ∘ (fun c => if c = 233 then 101 else c) ∘
      (fun c => if c = 225 then 97 else c)) l = List.map accFix l :=
  List.map_congr_left (fun a _ => accChain_eq a)

/-- Normal form of the source canonicalizer: `strstd` equals the spec-shaped
pipeline `strstdSpec`. -/
theorem strstd_eq (s : List Nat) : strstd s = strstdSpec s := by
  unfold strstd
  simp only [pyRemove_eq_filter, pyReplace_amp, pyReplace_single_map]
  rw [filter_self_filter]
  rw [filter_expandAmp 63 _ (by omega) (by omega) (by omega) (by omega),
    filter_expandAmp 44 _ (by omega) (by omega) (by omega) (by omega),
    filter_expandAmp 45 _ (by omega) (by omega) (by omega) (by omega),
    filter_expandAmp 33 _ (by omega) (by omega) (by omega) (by omega),
    filter_expandAmp 46 _ (by omega) (by omega) (by omega) (by omega),
    filter_expandAmp 96 _ (by omega) (by omega) (by omega) (by omega),
    filter_expandAmp 32 _ (by omega) (by omega) (by omega) (by omega)]
  simp only [List.filter_filter]
  simp only [List.map_map]
  rw [filter_keepPred, map_accChain]
  unfold strstdSpec parenCut
  rfl

/-- C4 as amended: the canonicalizer equals the spec-shaped reference pipeline
once "straight and curly apostrophes" is read as straight apostrophes only and
"all whitespace" as the ASCII space only, and parenthetical suffixes are
dropped: `canonicalize("Song (Remix)") = canonicalize("Song")`. -/
theorem C4_canonicalize_amended :
    (∀ s : List Nat, strstd s = strstdSpec s) ∧
    strstd (pyStr "Song (Remix)") = strstd (pyStr "Song") :=
  ⟨strstd_eq, by decide⟩

theorem mem_expandAmp {c : Nat} {l : List Nat} (h : c ∈ expandAmp l) :
    c = 97 ∨ c = 110 ∨ c = 100 ∨ (c ∈ l ∧ c ≠ 38) := by
  induction l with
  | nil => simp [expandAmp] at h
  | cons d rest ih =>
    rw [expandAmp_cons] at h
    rcases List.mem_append.mp h with h1 | h2
    · by_cases hd : d = 38
      · rw [if_pos hd] at h1
        simp only [List.mem_cons, List.not_mem_nil, or_false] at h1
        rcases h1 with rfl | rfl | rfl
        · exact Or.inl rfl
        · exact Or.inr (Or.inl rfl)
        · exact Or.inr (Or.inr (Or.inl rfl))
      · rw [if_neg hd] at h1
        simp only [List.mem_cons, List.not_mem_nil, or_false] at h1
        subst h1
        exact Or.inr (Or.inr (Or.inr ⟨List.mem_cons_self _ _, hd⟩))
    · rcases ih h2 with h3 | h3 | h3 | ⟨hm, hne⟩
      · exact Or.inl h3
      · exact Or.inr (Or.inl h3)
      · exact Or.inr (Or.inr (Or.inl h3))
      · exact Or.inr (Or.inr (Or.inr ⟨List.mem_cons_of_mem d hm, hne⟩))

theorem expandAmp_id {l : List Nat} (h : ∀ c ∈ l, c ≠ 38) : expandAmp l = l := by
  induction l with
  | nil => rfl
  | cons d rest ih =>
    rw [expandAmp_cons, if_neg (h d (List.mem_cons_self d rest))]
    rw [ih (fun c hc => h c (List.mem_cons_of_mem d hc))]
    rfl

theorem mem_pyReplaceAux {pat rep : List Nat} :
    ∀ (fuel : Nat) (l : List Nat) (c : Nat), c ∈ pyReplaceAux pat rep fuel l →
      c ∈ rep ∨ c ∈ l := by
  intro fuel
  induction fuel with
  | zero =>
    intro l c h
    cases l with
    | nil => simp [pyReplaceAux] at h
    | cons d rest => exact Or.inr h
  | succ fuel ih =>
    intro l c h
    cases l with
    | nil => simp [pyReplaceAux] at h
    | cons d rest =>
      simp only [pyReplaceAux] at h
      by_cases hp : pat.isPrefixOf (d :: rest) = true
      · rw [if_pos hp] at h
        rcases List.mem_append.mp h with h1 | h2
        · exact Or.inl h1
        · rcases ih _ _ h2 with h3 | h3
          · exact Or.inl h3
          · exact Or.inr (List.drop_subset _ _ h3)
      · rw [if_neg hp] at h
        rcases List.mem_cons.mp h with rfl | h2
        · exact Or.inr (List.mem_cons_self _ _)
        · rcases ih _ _ h2 with h3 | h3
          · exact Or.inl h3
          · exact Or.inr (List.mem_cons_of_mem d h3)

theorem mem_pyReplace {pat rep l : List Nat} {c : Nat} (h : c ∈ pyReplace pat rep l) :
    c ∈ rep ∨ c ∈ l :=
  mem_pyReplaceAux l.length l c h

theorem pyReplaceAux_id {p0 : Nat} {pr rep : List Nat} :
    ∀ (fuel : Nat) (l : List Nat), p0 ∉ l → pyReplaceAux (p0 :: pr) rep fuel l = l := by
  intro fuel
  induction fuel with
  | zero =>
    intro l h
    cases l with
    | nil => rfl
    | cons d rest => rfl
  | succ fuel ih =>
    intro l h
    cases l with
    | nil => rfl
    | cons d rest =>
      have hd : p0 ≠ d := fun he => h (he ▸ List.mem_cons_self d rest)
      simp only [pyReplaceAux, List.isPrefixOf_cons₂]
      rw [if_neg (by simp [hd]), ih rest (fun hm => h (List.mem_cons_of_mem d hm))]

theorem pyReplace_id {p0 : Nat} {pr rep l : List Nat} (h : p0 ∉ l) :
    pyReplace (p0 :: pr) rep l = l :=
  pyReplaceAux_id l.length l h

theorem mem_parenCut {l : List Nat} {c : Nat} (h : c ∈ parenCut l) : c ∈ l := by
  unfold parenCut at h
  split at h
  · exact (List.takeWhile_prefix _).subset h
  · exact h

theorem parenCut_no40 (l : List Nat) : 40 ∉ parenCut l := by
  unfold parenCut
  split
  · intro hm
    have := List.mem_takeWhile_imp hm
    simp at this
  · next hc =>
    intro hm
    exact hc (List.elem_iff.mpr hm)

theorem parenCut_id {l : List Nat} (h : 40 ∉ l) : parenCut l = l := by
  unfold parenCut
  rw [if_neg (fun hc => h (List.elem_iff.mp hc))]

theorem map_fix {f : Nat → Nat} {l : List Nat} (h : ∀ c ∈ l, f c = c) : l.map f = l := by
  induction l with
  | nil => rfl
  | cons d rest ih =>
    rw [List.map_cons, h d (List.mem_cons_self d rest),
      ih (fun c hc => h c (List.mem_cons_of_mem d hc))]

theorem pyLower_eq_self {x : Nat} (h : ¬(65 ≤ x ∧ x ≤ 90)) (h1 : x ≠ 193) (h2 : x ≠ 201)
    (h3 : x ≠ 205) (h4 : x ≠ 211) (h5 : x ≠ 218) : pyLower x = x := by
  unfold pyLower
  rw [if_neg h, if_neg h1, if_neg h2, if_neg h3, if_neg h4, if_neg h5]

theorem pyLower_idem (c : Nat) : pyLower (pyLower c) = pyLower c := by
  by_cases h : 65 ≤ c ∧ c ≤ 90
  · have hc : pyLower c = c + 32 := by unfold pyLower; rw [if_pos h]
    rw [hc]
    exact pyLower_eq_self (by omega) (by omega) (by omega) (by omega) (by omega) (by omega)
  · by_cases h1 : c = 193
    · subst h1; decide
    by_cases h2 : c = 201
    · subst h2; decide
    by_cases h3 : c = 205
    · subst h3; decide
    by_cases h4 : c = 211
    · subst h4; decide
    by_cases h5 : c = 218
    · subst h5; decide
    rw [pyLower_eq_self h h1 h2 h3 h4 h5, pyLower_eq_self h h1 h2 h3 h4 h5]

theorem contains_eq_false_of_not_mem {c : Nat} {l : List Nat} (h : c ∉ l) :
    l.contains c = false := by
  cases hc : l.contains c
  · rfl
  · exact absurd (List.elem_iff.mp hc) h

theorem strstd_char_source {s : List Nat} {c : Nat} (h : c ∈ strstd s) :
    ∃ d, c = pyLower d ∧ d ≠ 40 ∧
      (d = 51 ∨ d = 48 ∨
        ∃ z, d = accFix z ∧
          (z = 97 ∨ z = 110 ∨ z = 100 ∨
            (z ∈ s ∧ z ≠ 38 ∧ removeChars.contains z = false))) := by
  rw [strstd_eq] at h
  unfold strstdSpec at h
  rcases List.mem_map.mp h with ⟨d, hd, rfl⟩
  refine ⟨d, rfl, fun h40 => parenCut_no40 _ (h40 ▸ hd), ?_⟩
  have hd2 := mem_parenCut hd
  rcases mem_pyReplace hd2 with h30 | hin
  · simp only [List.mem_cons, List.not_mem_nil, or_false] at h30
    rcases h30 with rfl | rfl
    · exact Or.inl rfl
    · exact Or.inr (Or.inl rfl)
  · rcases List.mem_map.mp hin with ⟨z, hz, rfl⟩
    refine Or.inr (Or.inr ⟨z, rfl, ?_⟩)
    rcases mem_expandAmp hz with h97 | h110 | h100 | ⟨hmem, hne⟩
    · exact Or.inl h97
    · exact Or.inr (Or.inl h110)
    · exact Or.inr (Or.inr (Or.inl h100))
    · have hm := List.mem_filter.mp hmem
      refine Or.inr (Or.inr (Or.inr ⟨hm.1, hne, ?_⟩))
      simpa using hm.2

theorem pyLower_base {d : Nat} (h39 : d ≠ 39) (h63 : d ≠ 63) (h44 : d ≠ 44) (h45 : d ≠ 45)
    (h33 : d ≠ 33) (h46 : d ≠ 46) (h96 : d ≠ 96) (h32 : d ≠ 32) (h38 : d ≠ 38)
    (h40 : d ≠ 40) :
    pyLower d ≠ 39 ∧ pyLower d ≠ 63 ∧ pyLower d ≠ 44 ∧ pyLower d ≠ 45 ∧ pyLower d ≠ 33 ∧
    pyLower d ≠ 46 ∧ pyLower d ≠ 96 ∧ pyLower d ≠ 32 ∧ pyLower d ≠ 38 ∧ pyLower d ≠ 40 ∧
    pyLower d ≠ 84 := by
  unfold pyLower
  split_ifs <;> omega

theorem d_base {s : List Nat} {d : Nat}
    (hsrc : d = 51 ∨ d = 48 ∨
      ∃ z, d = accFix z ∧
        (z = 97 ∨ z = 110 ∨ z = 100 ∨ (z ∈ s ∧ z ≠ 38 ∧ removeChars.contains z = false))) :
    d ≠ 39 ∧ d ≠ 63 ∧ d ≠ 44 ∧ d ≠ 45 ∧ d ≠ 33 ∧ d ≠ 46 ∧ d ≠ 96 ∧ d ≠ 32 ∧ d ≠ 38 := by
  rcases hsrc with rfl | rfl | ⟨z, rfl, hz⟩
  · omega
  · omega
  · rcases hz with rfl | rfl | rfl | ⟨hmem, hne, hcon⟩
    · decide
    · decide
    · decide
    · simp only [removeChars] at hcon
      simp only [List.contains_cons, List.contains_nil, Bool.or_eq_false_iff,
        beq_eq_false_iff_ne, ne_eq] at hcon
      unfold accFix
      split_ifs <;> omega

theorem strstd_char_facts {s : List Nat} {c : Nat} (h : c ∈ strstd s) :
    c ∉ removeChars ∧ c ≠ 38 ∧ c ≠ 40 ∧ c ≠ 84 ∧ pyLower c = c := by
  obtain ⟨d, rfl, h40, hsrc⟩ := strstd_char_source h
  obtain ⟨h39, h63, h44, h45, h33, h46, h96, h32, h38⟩ := d_base hsrc
  obtain ⟨k39, k63, k44, k45, k33, k46, k96, k32, k38, k40, k84⟩ :=
    pyLower_base h39 h63 h44 h45 h33 h46 h96 h32 h38 h40
  refine ⟨?_, k38, k40, k84, pyLower_idem d⟩
  simp only [removeChars, List.mem_cons, List.not_mem_nil, or_false]
  push_neg
  exact ⟨k39, k63, k44, k45, k33, k46, k96, k32⟩

theorem accFix_no_accLower (z : Nat) :
    accFix z ≠ 225 ∧ accFix z ≠ 233 ∧ accFix z ≠ 237 ∧ accFix z ≠ 243 ∧ accFix z ≠ 250 := by
  unfold accFix
  split_ifs <;> omega

theorem strstd_char_acc {s : List Nat}
    (hs : ∀ c ∈ s, c ≠ 193 ∧ c ≠ 201 ∧ c ≠ 205 ∧ c ≠ 211 ∧ c ≠ 218)
    {c : Nat} (h : c ∈ strstd s) :
    c ≠ 225 ∧ c ≠ 233 ∧ c ≠ 237 ∧ c ≠ 243 ∧ c ≠ 250 := by
  obtain ⟨d, rfl, h40, hsrc⟩ := strstd_char_source h
  have hd : (d ≠ 225 ∧ d ≠ 233 ∧ d ≠ 237 ∧ d ≠ 243 ∧ d ≠ 250) ∧
      (d ≠ 193 ∧ d ≠ 201 ∧ d ≠ 205 ∧ d ≠ 211 ∧ d ≠ 218) := by
    rcases hsrc with rfl | rfl | ⟨z, rfl, hz⟩
    · omega
    · omega
    · refine ⟨accFix_no_accLower z, ?_⟩
      rcases hz with rfl | rfl | rfl | ⟨hmem, hne, hcon⟩
      · decide
      · decide
      · decide
      · have hup := hs z hmem
        unfold accFix
        split_ifs <;> omega
  obtain ⟨⟨k1, k2, k3, k4, k5⟩, ⟨u1, u2, u3, u4, u5⟩⟩ := hd
  unfold pyLower
  split_ifs <;> omega

/-- C6 counterexample: the canonicalizer is not idempotent — on the single
uppercase accented vowel Á (193), one pass lowercases it to á (225) while the
accent-folding step has already run, and a second pass folds it further to
a (97). -/
theorem C6_counterexample :
    strstd [193] = [225] ∧ strstd [225] = [97] ∧
    strstd (strstd [193]) ≠ strstd [193] :=
  ⟨by decide, by decide, by decide⟩

/-- C6 as amended: the canonicalizer is idempotent on every input containing
none of the uppercase accented vowels Á (193), É (201), Í (205), Ó (211),
Ú (218). -/
theorem C6_idempotent_amended (s : List Nat)
    (hs : ∀ c ∈ s, c ≠ 193 ∧ c ≠ 201 ∧ c ≠ 205 ∧ c ≠ 211 ∧ c ≠ 218) :
    strstd (strstd s) = strstd s := by
  have hfacts : ∀ c ∈ strstd s,
      c ∉ removeChars ∧ c ≠ 38 ∧ c ≠ 40 ∧ c ≠ 84 ∧ pyLower c = c :=
    fun c hc => strstd_char_facts hc
  have hacc : ∀ c ∈ strstd s, c ≠ 225 ∧ c ≠ 233 ∧ c ≠ 237 ∧ c ≠ 243 ∧ c ≠ 250 :=
    fun c hc => strstd_char_acc hs hc
  have haccfix : ∀ c ∈ strstd s, accFix c = c := fun c hc => by
    have h5 := hacc c hc
    unfold accFix
    split_ifs <;> omega
  have hlower : ∀ c ∈ strstd s, pyLower c = c := fun c hc => (hfacts c hc).2.2.2.2
  have h84 : (84 : Nat) ∉ strstd s := fun hm => (hfacts 84 hm).2.2.2.1 rfl
  have h40 : (40 : Nat) ∉ strstd s := fun hm => (hfacts 40 hm).2.2.1 rfl
  rw [strstd_eq (strstd s)]
  unfold strstdSpec thirtyPat
  rw [List.filter_eq_self.mpr (fun c hc => by
    show (!(removeChars.contains c)) = true
    rw [contains_eq_false_of_not_mem (hfacts c hc).1]
    rfl)]
  rw [expandAmp_id (fun c hc => (hfacts c hc).2.1)]
  rw [map_fix haccfix]
  rw [pyReplace_id h84]
  rw [parenCut_id h40]
  rw [map_fix hlower]

/-- Witness for C6: a concrete accent-upper-free input on which two passes of
the canonicalizer agree. -/
theorem C6_witness :
    strstd (strstd (pyStr "Hello, World! Thirty (Live)")) =
      strstd (pyStr "Hello, World! Thirty (Live)") :=
  C6_idempotent_amended (pyStr "Hello, World! Thirty (Live)") (by decide)

theorem mkTrack_key (artist album title : List Nat) :
    (mkTrack artist album title).key = strstd (artist ++ album ++ stdtrack title) := by
  simp only [mkTrack]

/-- C10: every key built by `Track.__init__` contains none of the removed
punctuation code points (space, straight apostrophe, question mark, comma,
hyphen, exclamation mark, period, backtick), no ampersand and no opening
parenthesis; the key equals its own lowercasing; and strict equality of two
constructed Tracks implies loose (key) equality. -/
theorem C10_key_invariant :
    (∀ artist album title c, c ∈ (mkTrack artist album title).key →
      c ∉ removeChars ∧ c ≠ 38 ∧ c ≠ 40) ∧
    (∀ artist album title : List Nat,
      ((mkTrack artist album title).key).map pyLower = (mkTrack artist album title).key) ∧
    (∀ a1 b1 t1 a2 b2 t2 : List Nat,
      Track.eq_strict (mkTrack a1 b1 t1) (mkTrack a2 b2 t2) = true →
      Track.eq (mkTrack a1 b1 t1) (mkTrack a2 b2 t2) = true) := by
  refine ⟨fun artist album title c hc => ?_, fun artist album title => ?_,
    fun a1 b1 t1 a2 b2 t2 h => ?_⟩
  · rw [mkTrack_key] at hc
    have hf := strstd_char_facts hc
    exact ⟨hf.1, hf.2.1, hf.2.2.1⟩
  · rw [mkTrack_key]
    exact map_fix (fun c hc => (strstd_char_facts hc).2.2.2.2)
  · simp only [Track.eq_strict, mkTrack, Bool.and_eq_true, beq_iff_eq] at h
    obtain ⟨⟨ha, hb⟩, ht⟩ := h
    simp only [Track.eq, mkTrack, beq_iff_eq]
    rw [ha, hb, ht]

/-- Witness for C10: the invariant instantiated on the ledger-aggregation
example track (Queen, A Night at the Opera, 39). -/
theorem C10_witness :
    ((113 : Nat) ∉ removeChars ∧ (113 : Nat) ≠ 38 ∧ (113 : Nat) ≠ 40) ∧
    ((mkTrack (pyStr "Queen") (pyStr "A Night at the Opera") (pyStr "39")).key).map pyLower
      = (mkTrack (pyStr "Queen") (pyStr "A Night at the Opera") (pyStr "39")).key ∧
    Track.eq (mkTrack (pyStr "Queen") (pyStr "A Night at the Opera") (pyStr "39"))
      (mkTrack (pyStr "Queen") (pyStr "A Night at the Opera") (pyStr "39")) = true :=
  ⟨C10_key_invariant.1 (pyStr "Queen") (pyStr "A Night at the Opera") (pyStr "39") 113
      (by decide),
   C10_key_invariant.2.1 (pyStr "Queen") (pyStr "A Night at the Opera") (pyStr "39"),
   C10_key_invariant.2.2 (pyStr "Queen") (pyStr "A Night at the Opera") (pyStr "39")
     (pyStr "Queen") (pyStr "A Night at the Opera") (pyStr "39") (by decide)⟩
